import Mathlib

/-!
Shallow embedding of the flow-collector pipeline in `src/src/main.rs`
(repository `bobrik/internet-hogs`): field-map construction, flow
normalization, role/direction classification, the IP→MAC learning cache,
the per-MAC byte counter family, canonical-row construction and the
sequential ingestion loop.  Rust panics (`unwrap`) are embedded as `none` /
loop termination; machine integers are `Nat` with explicit bounds where the
code checks them.
-/

/-- IP addresses as in `std::net::IpAddr`: either a v4 or a v6 address.
The numeric payload is abstracted to `Nat`; `0` is the unspecified address
of each family. -/
inductive IpAddr where
  | v4 (a : Nat)
  | v6 (a : Nat)
deriving DecidableEq, Repr

/-- `Ipv4Addr::UNSPECIFIED` (0.0.0.0). -/
def ipv4Unspecified : Nat := 0

/-- `Ipv6Addr::UNSPECIFIED` (::). -/
def ipv6Unspecified : Nat := 0

/-- The field identities used by `measure` (subset of the external
decoder's `IPFixField` enum that the program looks up). -/
inductive IPFixField where
  | sourceMacaddress
  | postSourceMacaddress
  | sourceIpv4address
  | sourceIpv6address
  | sourceTransportPort
  | destinationIpv4address
  | destinationIpv6address
  | destinationTransportPort
  | protocolIdentifier
  | packetDeltaCount
  | octetDeltaCount
  | flowDirection
deriving DecidableEq, Repr

/-- Values carried by decoded fields (boundary model of the external
decoder's `FieldValue`): a string (MAC addresses), an IP address, or an
unsigned number. -/
inductive FieldValue where
  | str (s : String)
  | ip (a : IpAddr)
  | num (n : Nat)
deriving DecidableEq, Repr

/-- `String::try_from(&FieldValue)`. -/
def FieldValue.asString : FieldValue → Option String
  | .str s => some s
  | _ => none

/-- `IpAddr::try_from(&FieldValue)`. -/
def FieldValue.asIp : FieldValue → Option IpAddr
  | .ip a => some a
  | _ => none

/-- `u8::try_from(&FieldValue)`: succeeds when the numeric value fits. -/
def FieldValue.asU8 : FieldValue → Option Nat
  | .num n => if n < 2 ^ 8 then some n else none
  | _ => none

/-- `u16::try_from(&FieldValue)`. -/
def FieldValue.asU16 : FieldValue → Option Nat
  | .num n => if n < 2 ^ 16 then some n else none
  | _ => none

/-- `u32::try_from(&FieldValue)`. -/
def FieldValue.asU32 : FieldValue → Option Nat
  | .num n => if n < 2 ^ 32 then some n else none
  | _ => none

/-- `const EMPTY_MAC: &str = "00:00:00:00:00:00"` (main.rs line 27). -/
def EMPTY_MAC : String := "00:00:00:00:00:00"

/-- The Field Map Builder (main.rs lines 183–184):
`data_field.values().cloned().collect::<BTreeMap<_, _>>()`.  Collecting an
iterator of pairs inserts each pair in order, so a later occurrence of a
key overwrites an earlier one. -/
def buildMap (fields : List (IPFixField × FieldValue)) : IPFixField → Option FieldValue :=
  fields.foldl (fun m kv => fun k => if k = kv.1 then some kv.2 else m k) (fun _ => none)

/-- `map.get(&key).or_else(|| map.get(&fallback))` from `extract_field!`
(main.rs lines 150–152). -/
def getOr (map : IPFixField → Option FieldValue) (k k₂ : IPFixField) : Option FieldValue :=
  match map k with
  | some v => some v
  | none => map k₂

/-- The canonical flow observation extracted by the Flow Normalizer:
the nine required fields of one data record in extraction order. -/
structure FlowObs where
  srcMac : String
  srcAddr : IpAddr
  srcPort : Nat
  dstAddr : IpAddr
  dstPort : Nat
  protocol : Nat
  packets : Nat
  bytes : Nat
  direction : Nat
deriving DecidableEq, Repr

/-- The Flow Normalizer (main.rs lines 186–218): each required field is
extracted by primary key, with a secondary key as fallback for the MAC and
address fields, and converted to its typed form.  In the source every
failure is an `unwrap` panic; here it is `none`. -/
def normalizeFlow (map : IPFixField → Option FieldValue) : Option FlowObs := do
  let srcMac ← (getOr map .sourceMacaddress .postSourceMacaddress).bind FieldValue.asString
  let srcAddr ← (getOr map .sourceIpv4address .sourceIpv6address).bind FieldValue.asIp
  let srcPort ← (map .sourceTransportPort).bind FieldValue.asU16
  let dstAddr ← (getOr map .destinationIpv4address .destinationIpv6address).bind FieldValue.asIp
  let dstPort ← (map .destinationTransportPort).bind FieldValue.asU16
  let protocol ← (map .protocolIdentifier).bind FieldValue.asU8
  let packets ← (map .packetDeltaCount).bind FieldValue.asU32
  let bytes ← (map .octetDeltaCount).bind FieldValue.asU32
  let direction ← (map .flowDirection).bind FieldValue.asU8
  pure ⟨srcMac, srcAddr, srcPort, dstAddr, dstPort, protocol, packets, bytes, direction⟩

/-- Result of the Role & Direction Classifier. -/
structure Classified where
  clientAddr : IpAddr
  clientPort : Nat
  serverAddr : IpAddr
  serverPort : Nat
  isDownload : Bool
deriving DecidableEq, Repr

/-- The Role & Direction Classifier (main.rs lines 220–227):
`is_download = direction == 0`; on download client := destination side,
otherwise client := source side. -/
def classify (o : FlowObs) : Classified :=
  let is_download := o.direction == 0
  if is_download then
    ⟨o.dstAddr, o.dstPort, o.srcAddr, o.srcPort, is_download⟩
  else
    ⟨o.srcAddr, o.srcPort, o.dstAddr, o.dstPort, is_download⟩

/-- The Endpoint Identity Cache step (main.rs lines 232–243): on download,
a read-only lookup defaulting to `EMPTY_MAC`; on upload, the source MAC is
returned and inserted when it differs from the cached value.  Returns the
resolved client MAC and the updated cache. -/
def resolveMac (cache : IpAddr → Option String) (isDownload : Bool) (clientAddr : IpAddr)
    (srcMac : String) : String × (IpAddr → Option String) :=
  if isDownload then
    (match cache clientAddr with
     | some mac => mac
     | none => EMPTY_MAC,
     cache)
  else
    (srcMac,
     if cache clientAddr ≠ some srcMac then
       fun a => if a = clientAddr then some srcMac else cache a
     else cache)

/-- The Traffic Counter Aggregator step (main.rs lines 247–251): only a
download bumps the counter labelled with the client MAC, by the record's
byte count. -/
def bumpCounter (counters : String → Nat) (isDownload : Bool) (mac : String) (bytes : Nat) :
    String → Nat :=
  if isDownload then
    fun m => if m = mac then counters m + bytes else counters m
  else counters

/-- `char::to_digit(16)`. -/
def hexDigitVal (c : Char) : Option Nat :=
  if '0' ≤ c ∧ c ≤ '9' then some (c.toNat - '0'.toNat)
  else if 'a' ≤ c ∧ c ≤ 'f' then some (c.toNat - 'a'.toNat + 10)
  else if 'A' ≤ c ∧ c ≤ 'F' then some (c.toNat - 'A'.toNat + 10)
  else none

/-- `u64::MAX`. -/
def U64MAX : Nat := 2 ^ 64 - 1

/-- The digit loop of `u64::from_str_radix(_, 16)`: `checked_mul` then
`checked_add` against `u64::MAX`, failing on a non-digit. -/
def parseHexLoop : List Char → Nat → Option Nat
  | [], acc => some acc
  | c :: cs, acc =>
    match hexDigitVal c with
    | none => none
    | some d =>
      if acc * 16 > U64MAX then none
      else if acc * 16 + d > U64MAX then none
      else parseHexLoop cs (acc * 16 + d)

/-- `u64::from_str_radix(src, 16)` for the unsigned type `u64`: empty input
fails, a lone `+` fails, a leading `+` is skipped, and a `-` is not a sign
for an unsigned type (it fails as a non-digit). -/
def fromStrRadixU64 (s : List Char) : Option Nat :=
  match s with
  | [] => none
  | c :: rest =>
    if c = '+' then
      if rest = [] then none else parseHexLoop rest 0
    else parseHexLoop s 0

/-- `client_mac.replace(':', "")` as a character list. -/
def stripColons (s : String) : List Char :=
  s.data.filter (fun c => c ≠ ':')

/-- `u64::from_str_radix(&client_mac.replace(':', ""), 16)`
(main.rs line 126). -/
def macParse (s : String) : Option Nat :=
  fromStrRadixU64 (stripColons s)

/-- The Canonical Row (main.rs lines 74–96).  `insertion_time` is the
clock value passed in by the caller (the code reads `SystemTime::now()`). -/
structure IpFixRow where
  insertion_time : Nat
  client_mac : Nat
  client_ipv4 : Nat
  client_ipv6 : Nat
  client_port : Nat
  server_ipv4 : Nat
  server_ipv6 : Nat
  server_port : Nat
  protocol : Nat
  packets : Nat
  bytes : Nat
  is_download : Bool
deriving DecidableEq, Repr

/-- `IpFixRow::new` (main.rs lines 98–142): splits each address into a
(v4, v6) pair with the other family's slot held at its unspecified value,
and parses the MAC string as hexadecimal after dropping `:`; the parse
`unwrap` is `none` here. -/
def rowNew (now : Nat) (client_mac : String) (client_addr : IpAddr) (client_port : Nat)
    (server_addr : IpAddr) (server_port : Nat) (protocol packets bytes : Nat)
    (is_download : Bool) : Option IpFixRow :=
  let (client_ipv4, client_ipv6) :=
    match client_addr with
    | .v4 a => (a, ipv6Unspecified)
    | .v6 a => (ipv4Unspecified, a)
  let (server_ipv4, server_ipv6) :=
    match server_addr with
    | .v4 a => (a, ipv6Unspecified)
    | .v6 a => (ipv4Unspecified, a)
  match macParse client_mac with
  | none => none
  | some mac =>
    some ⟨now, mac, client_ipv4, client_ipv6, client_port, server_ipv4, server_ipv6,
      server_port, protocol, packets, bytes, is_download⟩

/-- Mutable state of the ingestion loop: the IP→MAC cache
(`local_ip_to_mac`), the counter family keyed by MAC label, and the rows
written to the inserter so far. -/
structure MState where
  cache : IpAddr → Option String
  counters : String → Nat
  rows : List IpFixRow

/-- Initial ingestion state: empty cache, zero counters, no rows. -/
def initState : MState :=
  ⟨fun _ => none, fun _ => 0, []⟩

/-- One observation through classifier, cache, counter and row
construction (main.rs lines 220–265), in source order.  `none` is the
process panic from the row's MAC-parse `unwrap`. -/
def processObs (now : Nat) (st : MState) (o : FlowObs) : Option MState :=
  let c := classify o
  let (mac, cache') := resolveMac st.cache c.isDownload c.clientAddr o.srcMac
  let counters' := bumpCounter st.counters c.isDownload mac o.bytes
  match rowNew now mac c.clientAddr c.clientPort c.serverAddr c.serverPort o.protocol
      o.packets o.bytes c.isDownload with
  | none => none
  | some row => some ⟨cache', counters', st.rows ++ [row]⟩

/-- One data record through the whole pipeline (main.rs lines 183–265):
build the field map, normalize, then process the observation.  `none` is
the process panic from a failed `unwrap` (missing required field or bad
MAC string). -/
def processRecord (now : Nat) (st : MState) (fields : List (IPFixField × FieldValue)) :
    Option MState :=
  (normalizeFlow (buildMap fields)).bind (processObs now st)

/-- The sequential ingestion loop over a list of data records, with a
commit oracle: `commitOk k` tells whether the `inserter.commit()` after the
`k`-th record succeeds.  A failed extraction or a failed commit is an
`unwrap` panic (main.rs lines 145–153 and 267), which ends the loop with
`none`; later records are not processed. -/
def runLoop (now : Nat) (commitOk : Nat → Bool) :
    MState → Nat → List (List (IPFixField × FieldValue)) → Option MState
  | st, _, [] => some st
  | st, k, r :: rs =>
    match processRecord now st r with
    | none => none
    | some st' =>
      if commitOk k then runLoop now commitOk st' (k + 1) rs else none

/-- The cache after one observation (the second component of
`resolveMac` at the classifier's client address). -/
def obsCache (cache : IpAddr → Option String) (o : FlowObs) : IpAddr → Option String :=
  (resolveMac cache (classify o).isDownload (classify o).clientAddr o.srcMac).2

/-- The MAC resolved for one observation (the first component of
`resolveMac` at the classifier's client address). -/
def obsMac (cache : IpAddr → Option String) (o : FlowObs) : String :=
  (resolveMac cache (classify o).isDownload (classify o).clientAddr o.srcMac).1

/-- The cache after a sequence of observations in ingestion order. -/
def runCache (cache : IpAddr → Option String) : List FlowObs → (IpAddr → Option String)
  | [] => cache
  | o :: rest => runCache (obsCache cache o) rest

/-- A character accepted by `char::to_digit(16)`. -/
def isHexDigit (c : Char) : Bool :=
  (hexDigitVal c).isSome

/-- Folding hexadecimal digits onto an accumulator, without any overflow
check: the plain mathematical value of a digit string. -/
def hexValFrom (acc : Nat) (cs : List Char) : Nat :=
  cs.foldl (fun a c => a * 16 + (hexDigitVal c).getD 0) acc

/-- The mathematical value of a hexadecimal digit string (spec side:
"interpreting the … string as hexadecimal"). -/
def hexVal (cs : List Char) : Nat :=
  hexValFrom 0 cs

/-- Spec-side characterization of the strings `u64::from_str_radix(_, 16)`
accepts: after an optional leading `+`, a non-empty string of hexadecimal
digits whose value fits in 64 bits. -/
def validU64Hex (cs : List Char) : Bool :=
  let ds := if cs.head? = some '+' then cs.tail else cs
  !ds.isEmpty && ds.all isHexDigit && decide (hexVal ds ≤ U64MAX)

/-- Spec-side reading of the Field Map Builder's contract: the value of
the last occurrence of a key in the field list (none when the key never
occurs). -/
def specLastOccurrence : List (IPFixField × FieldValue) → IPFixField → Option FieldValue
  | [], _ => none
  | kv :: rest, k =>
    match specLastOccurrence rest k with
    | some v => some v
    | none => if kv.1 = k then some kv.2 else none

/-- A well-formed data record: all nine required fields present (an upload,
direction 1). -/
def goodFields : List (IPFixField × FieldValue) :=
  [(.sourceMacaddress, .str "aa:bb:cc:dd:ee:ff"),
   (.sourceIpv4address, .ip (.v4 167772165)),
   (.sourceTransportPort, .num 5000),
   (.destinationIpv4address, .ip (.v4 1572395042)),
   (.destinationTransportPort, .num 443),
   (.protocolIdentifier, .num 6),
   (.packetDeltaCount, .num 10),
   (.octetDeltaCount, .num 500),
   (.flowDirection, .num 1)]

/-- `goodFields` with the source MAC missing under both its primary and
its secondary (post-NAT) key: a record the Flow Normalizer must reject. -/
def badFields : List (IPFixField × FieldValue) :=
  goodFields.tail

/-- A field list with a duplicated key (for the last-write-wins check). -/
def dupFields : List (IPFixField × FieldValue) :=
  [(.flowDirection, .num 0), (.octetDeltaCount, .num 7), (.flowDirection, .num 1)]

/-- A concrete download observation (direction 0, 1000 bytes). -/
def obsDl : FlowObs :=
  ⟨"", .v4 93, 443, .v4 10, 5000, 6, 20, 1000, 0⟩

/-- A concrete upload observation from client IP `.v4 10`. -/
def obsUl : FlowObs :=
  ⟨"aa:bb:cc:dd:ee:ff", .v4 10, 5000, .v4 93, 443, 6, 10, 500, 1⟩

/-- A second upload from the same client IP with a different MAC. -/
def obsUl2 : FlowObs :=
  ⟨"11:22:33:44:55:66", .v4 10, 5000, .v4 93, 443, 6, 3, 30, 1⟩

/-- An upload from a different client IP (`.v4 7`). -/
def obsUlOther : FlowObs :=
  ⟨"22:22:22:22:22:22", .v4 7, 1, .v4 8, 2, 6, 1, 1, 1⟩

/-- The Canonical Row produced for an upload with MAC `aa:bb:cc:dd:ee:ff`,
client `.v4 10`, server `.v6 7` (used as a concrete instance). -/
def rowEx : IpFixRow := ⟨0, 187723572702975, 10, 0, 5000, 0, 7, 443, 6, 10, 500, true⟩

lemma hexValFrom_cons (a : Nat) (c : Char) (cs : List Char) :
    hexValFrom a (c :: cs) = hexValFrom (a * 16 + (hexDigitVal c).getD 0) cs := rfl

lemma le_hexValFrom (acc : Nat) (cs : List Char) : acc ≤ hexValFrom acc cs := by
  induction cs generalizing acc with
  | nil => simp [hexValFrom]
  | cons c cs ih =>
    rw [hexValFrom_cons]
    exact le_trans
      (le_trans (Nat.le_mul_of_pos_right acc (by norm_num)) (Nat.le_add_right _ _)) (ih _)

lemma parseHexLoop_eq_some (cs : List Char) : ∀ acc, cs.all isHexDigit = true →
    hexValFrom acc cs ≤ U64MAX → parseHexLoop cs acc = some (hexValFrom acc cs) := by
  induction cs with
  | nil => intro acc _ _; rfl
  | cons c cs ih =>
    intro acc hall hle
    rw [List.all_cons, Bool.and_eq_true] at hall
    rcases hd : hexDigitVal c with _ | d
    · rw [isHexDigit, hd] at hall
      exact absurd hall.1 (by simp)
    · have hle' : hexValFrom (acc * 16 + d) cs ≤ U64MAX := by
        rw [hexValFrom_cons, hd] at hle
        simpa using hle
      have hstep : acc * 16 + d ≤ U64MAX := le_trans (le_hexValFrom _ _) hle'
      have h1 : ¬ (acc * 16 > U64MAX) := by omega
      have h2 : ¬ (acc * 16 + d > U64MAX) := by omega
      simp only [parseHexLoop, hd, if_neg h1, if_neg h2]
      rw [ih _ hall.2 hle', hexValFrom_cons, hd]
      rfl

lemma parseHexLoop_isSome (cs : List Char) : ∀ acc, acc ≤ U64MAX →
    (parseHexLoop cs acc).isSome = true →
    cs.all isHexDigit = true ∧ hexValFrom acc cs ≤ U64MAX := by
  induction cs with
  | nil => intro acc hacc _; exact ⟨rfl, hacc⟩
  | cons c cs ih =>
    intro acc hacc hs
    rcases hd : hexDigitVal c with _ | d
    · simp [parseHexLoop, hd] at hs
    · simp only [parseHexLoop, hd] at hs
      by_cases h1 : acc * 16 > U64MAX
      · simp [h1] at hs
      · by_cases h2 : acc * 16 + d > U64MAX
        · simp [h1, h2] at hs
        · rw [if_neg h1, if_neg h2] at hs
          have := ih (acc * 16 + d) (by omega) hs
          refine ⟨?_, ?_⟩
          · rw [List.all_cons, Bool.and_eq_true]
            exact ⟨by simp [isHexDigit, hd], this.1⟩
          · rw [hexValFrom_cons, hd]
            simpa using this.2

lemma parseHexLoop_isSome_iff (cs : List Char) (acc : Nat) (hacc : acc ≤ U64MAX) :
    (parseHexLoop cs acc).isSome
      = (cs.all isHexDigit && decide (hexValFrom acc cs ≤ U64MAX)) := by
  rw [Bool.eq_iff_iff]
  constructor
  · intro hs
    have := parseHexLoop_isSome cs acc hacc hs
    simp [this.1, this.2]
  · intro hb
    rw [Bool.and_eq_true, decide_eq_true_eq] at hb
    rw [parseHexLoop_eq_some cs acc hb.1 hb.2]
    rfl

lemma fromStrRadix_isSome (cs : List Char) :
    (fromStrRadixU64 cs).isSome = validU64Hex cs := by
  cases cs with
  | nil => decide
  | cons c rest =>
    by_cases hc : c = '+'
    · subst hc
      cases rest with
      | nil => decide
      | cons c2 r2 =>
        show (parseHexLoop (c2 :: r2) 0).isSome = validU64Hex ('+' :: c2 :: r2)
        rw [parseHexLoop_isSome_iff _ _ (by norm_num [U64MAX])]
        simp [validU64Hex, hexVal]
    · simp only [fromStrRadixU64, if_neg hc]
      rw [parseHexLoop_isSome_iff _ _ (by norm_num [U64MAX])]
      simp [validU64Hex, hc, hexVal]

lemma fromStrRadix_hexOnly (cs : List Char) (h1 : cs ≠ []) (h2 : cs.all isHexDigit = true)
    (h3 : hexVal cs ≤ U64MAX) : fromStrRadixU64 cs = some (hexVal cs) := by
  cases cs with
  | nil => exact absurd rfl h1
  | cons c rest =>
    have hc : c ≠ '+' := by
      intro h
      subst h
      rw [List.all_cons, Bool.and_eq_true] at h2
      exact absurd h2.1 (by decide)
    simp only [fromStrRadixU64, if_neg hc]
    exact parseHexLoop_eq_some _ 0 h2 h3

lemma obsCache_upload_self (cache : IpAddr → Option String) (o : FlowObs)
    (h : o.direction ≠ 0) : obsCache cache o o.srcAddr = some o.srcMac := by
  have hcl : classify o = ⟨o.srcAddr, o.srcPort, o.dstAddr, o.dstPort, false⟩ := by
    simp [classify, h]
  simp only [obsCache, hcl, resolveMac]
  by_cases hc : cache o.srcAddr = some o.srcMac
  · simp [hc]
  · simp [hc]

lemma obsCache_preserves (cache : IpAddr → Option String) (o : FlowObs) (A : IpAddr)
    (h : o.direction = 0 ∨ o.srcAddr ≠ A) : obsCache cache o A = cache A := by
  by_cases hd : o.direction = 0
  · have hcl : classify o = ⟨o.dstAddr, o.dstPort, o.srcAddr, o.srcPort, true⟩ := by
      simp [classify, hd]
    simp [obsCache, hcl, resolveMac]
  · have h' : o.srcAddr ≠ A := h.resolve_left hd
    have hcl : classify o = ⟨o.srcAddr, o.srcPort, o.dstAddr, o.dstPort, false⟩ := by
      simp [classify, hd]
    simp only [obsCache, hcl, resolveMac]
    by_cases hc : cache o.srcAddr = some o.srcMac
    · simp [hc]
    · simp [hc, if_neg (Ne.symm h')]

lemma runCache_preserves (l : List FlowObs) : ∀ (cache : IpAddr → Option String) (A : IpAddr),
    (∀ o ∈ l, o.direction = 0 ∨ o.srcAddr ≠ A) → runCache cache l A = cache A := by
  induction l with
  | nil => intro cache A _; rfl
  | cons o rest ih =>
    intro cache A h
    show runCache (obsCache cache o) rest A = cache A
    rw [ih _ A (fun o' ho' => h o' (List.mem_cons_of_mem _ ho'))]
    exact obsCache_preserves cache o A (h o (List.mem_cons_self _ _))

lemma obsMac_download_hit (cache : IpAddr → Option String) (o : FlowObs) (M : String)
    (h : o.direction = 0) (hc : cache o.dstAddr = some M) : obsMac cache o = M := by
  have hcl : classify o = ⟨o.dstAddr, o.dstPort, o.srcAddr, o.srcPort, true⟩ := by
    simp [classify, h]
  simp [obsMac, hcl, resolveMac, hc]

lemma obsMac_download_miss (cache : IpAddr → Option String) (o : FlowObs)
    (h : o.direction = 0) (hc : cache o.dstAddr = none) : obsMac cache o = EMPTY_MAC := by
  have hcl : classify o = ⟨o.dstAddr, o.dstPort, o.srcAddr, o.srcPort, true⟩ := by
    simp [classify, h]
  simp [obsMac, hcl, resolveMac, hc]

lemma buildMap_foldl (fields : List (IPFixField × FieldValue)) :
    ∀ (m : IPFixField → Option FieldValue) (k : IPFixField),
      List.foldl (fun m kv => fun j => if j = kv.1 then some kv.2 else m j) m fields k
        = match specLastOccurrence fields k with
          | some v => some v
          | none => m k := by
  induction fields with
  | nil => intro m k; rfl
  | cons kv rest ih =>
    intro m k
    rw [List.foldl_cons, ih]
    rcases hs : specLastOccurrence rest k with _ | v
    · simp only [specLastOccurrence, hs]
      by_cases hk : kv.1 = k
      · simp [hk]
      · simp [hk, Ne.symm hk]
    · simp [specLastOccurrence, hs]

lemma specLastOccurrence_isSome (fields : List (IPFixField × FieldValue)) (k : IPFixField)
    (hk : k ∈ fields.map Prod.fst) : (specLastOccurrence fields k).isSome = true := by
  induction fields with
  | nil => simp at hk
  | cons kv rest ih =>
    rw [List.map_cons, List.mem_cons] at hk
    simp only [specLastOccurrence]
    rcases hs : specLastOccurrence rest k with _ | v
    · rcases hk with hk | hk
      · simp [hk]
      · have := ih hk
        rw [hs] at this
        simp at this
    · simp

/-- Claim C1 (code behavior at the failing input): a record whose field
list is missing the source MAC under both its primary and secondary keys
makes the ingestion loop return `none` — the `unwrap` in `extract_field!`
panics the process — so a well-formed record arriving afterwards is NOT
processed, while the same well-formed record alone is processed and
written.  The code has no dropped-record counter and does not continue. -/
theorem C1_missing_field_panics :
    processRecord 0 initState badFields = none ∧
    runLoop 0 (fun _ => true) initState 0 [badFields, goodFields] = none ∧
    (runLoop 0 (fun _ => true) initState 0 [goodFields]).map (fun s => s.rows.length)
      = some 1 :=
  ⟨rfl, rfl, by decide⟩

/-- Claim C2: the classifier sets `isDownload` exactly when the direction
field is 0; on download it takes client := destination side and
server := source side, otherwise client := source side and
server := destination side. -/
theorem C2_classifier_direction_roles : ∀ o : FlowObs,
    ((classify o).isDownload = true ↔ o.direction = 0) ∧
    (o.direction = 0 → classify o = ⟨o.dstAddr, o.dstPort, o.srcAddr, o.srcPort, true⟩) ∧
    (o.direction ≠ 0 → classify o = ⟨o.srcAddr, o.srcPort, o.dstAddr, o.dstPort, false⟩) := by
  intro o
  by_cases h : o.direction = 0 <;> simp [classify, h]

/-- Claim C2 witness: the classifier on a concrete download and a concrete
upload observation. -/
theorem C2_classifier_direction_roles_witness :
    classify obsDl = ⟨IpAddr.v4 10, 5000, IpAddr.v4 93, 443, true⟩ ∧
    classify obsUl = ⟨IpAddr.v4 10, 5000, IpAddr.v4 93, 443, false⟩ :=
  ⟨(C2_classifier_direction_roles obsDl).2.1 (by decide),
   (C2_classifier_direction_roles obsUl).2.2 (by decide)⟩

/-- Claim C3: after an upload from client IP `A` with source MAC `M`,
any later download whose client IP is `A`, with no intervening upload from
`A`, resolves its client MAC to `M`; and starting from the initial empty
cache, a download whose client IP never appeared in a prior upload
resolves to the all-zero sentinel `EMPTY_MAC`. -/
theorem C3_mac_inference :
    (∀ (cache : IpAddr → Option String) (l₂ : List FlowObs) (A : IpAddr) (M : String)
        (up down : FlowObs),
        up.direction ≠ 0 → up.srcAddr = A → up.srcMac = M →
        down.direction = 0 → down.dstAddr = A →
        (∀ o ∈ l₂, o.direction ≠ 0 → o.srcAddr ≠ A) →
        obsMac (runCache (obsCache cache up) l₂) down = M) ∧
    (∀ (l₁ : List FlowObs) (A : IpAddr) (down : FlowObs),
        down.direction = 0 → down.dstAddr = A →
        (∀ o ∈ l₁, o.direction ≠ 0 → o.srcAddr ≠ A) →
        obsMac (runCache initState.cache l₁) down = EMPTY_MAC) := by
  constructor
  · intro cache l₂ A M up down hup hupA hupM hdn hdnA hl
    have h1 : obsCache cache up A = some M := by
      subst hupA
      subst hupM
      exact obsCache_upload_self cache up hup
    have h2 : runCache (obsCache cache up) l₂ A = some M := by
      rw [runCache_preserves l₂ _ A (fun o ho => by
        by_cases hd : o.direction = 0
        · exact Or.inl hd
        · exact Or.inr (hl o ho hd))]
      exact h1
    refine obsMac_download_hit _ down M hdn ?_
    rw [hdnA]
    exact h2
  · intro l₁ A down hdn hdnA hl
    have h2 : runCache initState.cache l₁ A = none := by
      rw [runCache_preserves l₁ _ A (fun o ho => by
        by_cases hd : o.direction = 0
        · exact Or.inl hd
        · exact Or.inr (hl o ho hd))]
      rfl
    refine obsMac_download_miss _ down hdn ?_
    rw [hdnA]
    exact h2

/-- Claim C3 witness: a concrete upload from `.v4 10`, an unrelated upload
in between, then a download to `.v4 10`; and the sentinel case with no
prior upload from `.v4 10`. -/
theorem C3_mac_inference_witness :
    obsMac (runCache (obsCache initState.cache obsUl) [obsUlOther]) obsDl
      = "aa:bb:cc:dd:ee:ff" ∧
    obsMac (runCache initState.cache [obsUlOther]) obsDl = EMPTY_MAC :=
  ⟨C3_mac_inference.1 initState.cache [obsUlOther] (IpAddr.v4 10) "aa:bb:cc:dd:ee:ff"
      obsUl obsDl (by decide) rfl rfl rfl rfl (by decide),
   C3_mac_inference.2 [obsUlOther] (IpAddr.v4 10) obsDl rfl rfl (by decide)⟩

/-- Claim C4: a download observation leaves the Endpoint Identity Cache
unchanged (read-only lookup), and after two uploads from the same client
IP with differing MACs the cache holds exactly the most recent MAC for
that IP. -/
theorem C4_cache_upload_only :
    (∀ (cache : IpAddr → Option String) (o : FlowObs),
        (classify o).isDownload = true → obsCache cache o = cache) ∧
    (∀ (cache : IpAddr → Option String) (A : IpAddr) (m₁ m₂ : String) (up₁ up₂ : FlowObs),
        up₁.direction ≠ 0 → up₁.srcAddr = A → up₁.srcMac = m₁ →
        up₂.direction ≠ 0 → up₂.srcAddr = A → up₂.srcMac = m₂ → m₁ ≠ m₂ →
        runCache cache [up₁, up₂] A = some m₂) := by
  constructor
  · intro cache o h
    simp [obsCache, resolveMac, h]
  · intro cache A m₁ m₂ up₁ up₂ h1 hA1 hm1 h2 hA2 hm2 hne
    show obsCache (obsCache cache up₁) up₂ A = some m₂
    subst hA2
    subst hm2
    exact obsCache_upload_self _ up₂ h2

/-- Claim C4 witness: a concrete download leaves the empty cache unchanged,
and two concrete uploads from `.v4 10` with differing MACs leave only the
second MAC cached. -/
theorem C4_cache_upload_only_witness :
    obsCache initState.cache obsDl = initState.cache ∧
    runCache initState.cache [obsUl, obsUl2] (IpAddr.v4 10) = some "11:22:33:44:55:66" :=
  ⟨C4_cache_upload_only.1 initState.cache obsDl (by decide),
   C4_cache_upload_only.2 initState.cache (IpAddr.v4 10) "aa:bb:cc:dd:ee:ff"
      "11:22:33:44:55:66" obsUl obsUl2 (by decide) rfl rfl (by decide) rfl rfl (by decide)⟩

/-- Claim C5: an upload observation leaves every traffic counter
unchanged; a download observation adds exactly its byte count to the
counter labelled with the resolved client MAC and changes no other
counter. -/
theorem C5_counter_download_only :
    ∀ (now : Nat) (st : MState) (o : FlowObs) (st' : MState),
      processObs now st o = some st' →
      (o.direction ≠ 0 → st'.counters = st.counters) ∧
      (o.direction = 0 →
        st'.counters (obsMac st.cache o) = st.counters (obsMac st.cache o) + o.bytes ∧
        ∀ m, m ≠ obsMac st.cache o → st'.counters m = st.counters m) := by
  intro now st o st' h
  constructor
  · intro hd
    have hcl : classify o = ⟨o.srcAddr, o.srcPort, o.dstAddr, o.dstPort, false⟩ := by
      simp [classify, hd]
    simp only [processObs, hcl] at h
    split at h
    · exact absurd h (by simp)
    · rw [Option.some.injEq] at h
      subst h
      simp [bumpCounter]
  · intro hd
    have hcl : classify o = ⟨o.dstAddr, o.dstPort, o.srcAddr, o.srcPort, true⟩ := by
      simp [classify, hd]
    have hmac : obsMac st.cache o = (resolveMac st.cache true o.dstAddr o.srcMac).1 := by
      simp [obsMac, hcl]
    simp only [processObs, hcl] at h
    split at h
    · exact absurd h (by simp)
    · rw [Option.some.injEq] at h
      subst h
      constructor
      · simp [bumpCounter, hmac]
      · intro m hm
        rw [hmac] at hm
        simp [bumpCounter, if_neg hm]

/-- Claim C5 witness: a concrete download of 1000 bytes from an unknown
client adds exactly 1000 to the sentinel-labelled counter. -/
theorem C5_counter_download_only_witness :
    ∃ st', processObs 0 initState obsDl = some st' ∧ st'.counters EMPTY_MAC = 1000 :=
  ⟨_, rfl, ((C5_counter_download_only 0 initState obsDl _ rfl).2 rfl).1⟩

/-- Claim C6: every constructed Canonical Row stores each address side as
a (v4, v6) pair with the slot of the observation's family holding the
address and the slot of the other family holding that family's
unspecified value. -/
theorem C6_row_address_slots :
    ∀ (now : Nat) (mac : String) (ca : IpAddr) (cp : Nat) (sa : IpAddr)
      (sp pr pk byt : Nat) (dl : Bool) (row : IpFixRow),
      rowNew now mac ca cp sa sp pr pk byt dl = some row →
      ((∃ a, ca = IpAddr.v4 a ∧ row.client_ipv4 = a ∧ row.client_ipv6 = ipv6Unspecified) ∨
       (∃ a, ca = IpAddr.v6 a ∧ row.client_ipv6 = a ∧ row.client_ipv4 = ipv4Unspecified)) ∧
      ((∃ a, sa = IpAddr.v4 a ∧ row.server_ipv4 = a ∧ row.server_ipv6 = ipv6Unspecified) ∨
       (∃ a, sa = IpAddr.v6 a ∧ row.server_ipv6 = a ∧ row.server_ipv4 = ipv4Unspecified)) := by
  intro now mac ca cp sa sp pr pk byt dl row h
  rcases hm : macParse mac with _ | m
  · simp [rowNew, hm] at h
  · cases ca <;> cases sa <;> simp only [rowNew, hm, Option.some.injEq] at h <;> subst h
    · exact ⟨Or.inl ⟨_, rfl, rfl, rfl⟩, Or.inl ⟨_, rfl, rfl, rfl⟩⟩
    · exact ⟨Or.inl ⟨_, rfl, rfl, rfl⟩, Or.inr ⟨_, rfl, rfl, rfl⟩⟩
    · exact ⟨Or.inr ⟨_, rfl, rfl, rfl⟩, Or.inl ⟨_, rfl, rfl, rfl⟩⟩
    · exact ⟨Or.inr ⟨_, rfl, rfl, rfl⟩, Or.inr ⟨_, rfl, rfl, rfl⟩⟩

/-- Claim C6 witness: the row built from a v4 client and a v6 server
populates exactly the matching slots. -/
theorem C6_row_address_slots_witness :
    ((∃ a, IpAddr.v4 10 = IpAddr.v4 a ∧ rowEx.client_ipv4 = a ∧
        rowEx.client_ipv6 = ipv6Unspecified) ∨
     (∃ a, IpAddr.v4 10 = IpAddr.v6 a ∧ rowEx.client_ipv6 = a ∧
        rowEx.client_ipv4 = ipv4Unspecified)) ∧
    ((∃ a, IpAddr.v6 7 = IpAddr.v4 a ∧ rowEx.server_ipv4 = a ∧
        rowEx.server_ipv6 = ipv6Unspecified) ∨
     (∃ a, IpAddr.v6 7 = IpAddr.v6 a ∧ rowEx.server_ipv6 = a ∧
        rowEx.server_ipv4 = ipv4Unspecified)) :=
  C6_row_address_slots 0 "aa:bb:cc:dd:ee:ff" (IpAddr.v4 10) 5000 (IpAddr.v6 7) 443 6 10 500
    true rowEx (by decide)

/-- Claim C7: a constructed row's `client_mac` is the hexadecimal
interpretation of the colon-separated MAC string (for any string of hex
digits and colons whose value fits in `u64`), `aa:bb:cc:dd:ee:ff` encodes
to `0xaabbccddeeff`, and a download with no cached entry produces a row
whose `client_mac` is the all-zero sentinel value 0. -/
theorem C7_client_mac_encoding :
    (∀ (now : Nat) (mac : String) (ca : IpAddr) (cp : Nat) (sa : IpAddr)
        (sp pr pk byt : Nat) (dl : Bool),
        stripColons mac ≠ [] →
        (stripColons mac).all isHexDigit = true →
        hexVal (stripColons mac) ≤ U64MAX →
        (rowNew now mac ca cp sa sp pr pk byt dl).map (fun r => r.client_mac)
          = some (hexVal (stripColons mac))) ∧
    hexVal (stripColons "aa:bb:cc:dd:ee:ff") = 0xaabbccddeeff ∧
    (∀ (now : Nat) (st : MState) (o : FlowObs),
        o.direction = 0 → st.cache o.dstAddr = none →
        (processObs now st o).map (fun s => s.rows.map (fun r => r.client_mac))
          = some ((st.rows.map (fun r => r.client_mac)) ++ [0])) := by
  refine ⟨?_, by decide, ?_⟩
  · intro now mac ca cp sa sp pr pk byt dl h1 h2 h3
    have hp : macParse mac = some (hexVal (stripColons mac)) :=
      fromStrRadix_hexOnly _ h1 h2 h3
    simp [rowNew, hp]
  · intro now st o h0 hc
    have hcl : classify o = ⟨o.dstAddr, o.dstPort, o.srcAddr, o.srcPort, true⟩ := by
      simp [classify, h0]
    have hparse : macParse EMPTY_MAC = some 0 := by decide
    simp [processObs, hcl, resolveMac, hc, rowNew, hparse]

/-- Claim C7 witness: the concrete MAC `aa:bb:cc:dd:ee:ff`, and a concrete
cache-miss download writing a sentinel row. -/
theorem C7_client_mac_encoding_witness :
    (rowNew 0 "aa:bb:cc:dd:ee:ff" (IpAddr.v4 10) 5000 (IpAddr.v4 93) 443 6 10 500 false).map
        (fun r => r.client_mac) = some (hexVal (stripColons "aa:bb:cc:dd:ee:ff")) ∧
    (processObs 0 initState obsDl).map (fun s => s.rows.map (fun r => r.client_mac))
        = some ((initState.rows.map (fun r => r.client_mac)) ++ [0]) :=
  ⟨C7_client_mac_encoding.1 0 "aa:bb:cc:dd:ee:ff" (IpAddr.v4 10) 5000 (IpAddr.v4 93) 443
      6 10 500 false (by decide) (by decide) (by decide),
   C7_client_mac_encoding.2.2 0 initState obsDl rfl rfl⟩

/-- Claim C8 counterexample: with every commit failing, two well-formed
records make the ingestion loop return `none` (the `unwrap` on
`inserter.commit()` panics), so the second record is never processed —
whereas with commits succeeding both records are written.  The loop does
not drop the batch and continue. -/
theorem C8_commit_failure_counterexample :
    runLoop 0 (fun _ => false) initState 0 [goodFields, goodFields] = none ∧
    (runLoop 0 (fun _ => true) initState 0 [goodFields, goodFields]).map
      (fun s => s.rows.length) = some 2 :=
  ⟨rfl, by decide⟩

/-- Claim C8 (amended): when the commit after a successfully processed
record fails, the ingestion loop halts with `none` (the `unwrap` panic);
subsequent records are not processed. -/
theorem C8_commit_failure_amended :
    ∀ (now : Nat) (commitOk : Nat → Bool) (st : MState) (k : Nat)
      (r : List (IPFixField × FieldValue)) (rs : List (List (IPFixField × FieldValue)))
      (st' : MState),
      processRecord now st r = some st' → commitOk k = false →
      runLoop now commitOk st k (r :: rs) = none := by
  intro now commitOk st k r rs st' hp hc
  simp [runLoop, hp, hc]

/-- Claim C8 (amended) witness: a failing commit after one well-formed
record halts the loop. -/
theorem C8_commit_failure_amended_witness :
    runLoop 0 (fun _ => false) initState 0 [goodFields] = none :=
  C8_commit_failure_amended 0 (fun _ => false) initState 0 goodFields [] _ rfl rfl

/-- Claim C9: the Field Map Builder binds every key to the value of its
last occurrence in the field list, and every key occurring in the list is
present in the map. -/
theorem C9_field_map_last_write_wins :
    ∀ (fields : List (IPFixField × FieldValue)) (k : IPFixField),
      buildMap fields k = specLastOccurrence fields k ∧
      (k ∈ fields.map Prod.fst → (buildMap fields k).isSome = true) := by
  intro fields k
  have heq : buildMap fields k = specLastOccurrence fields k := by
    rw [buildMap, buildMap_foldl]
    rcases specLastOccurrence fields k with _ | v <;> rfl
  exact ⟨heq, fun hk => heq ▸ specLastOccurrence_isSome fields k hk⟩

/-- Claim C9 witness: with `flowDirection` occurring twice, the map holds
the later value and the key is present. -/
theorem C9_field_map_last_write_wins_witness :
    buildMap dupFields .flowDirection = some (FieldValue.num 1) ∧
    (buildMap dupFields .flowDirection).isSome = true :=
  ⟨(C9_field_map_last_write_wins dupFields .flowDirection).1.trans (by decide),
   (C9_field_map_last_write_wins dupFields .flowDirection).2 (by decide)⟩

/-- Claim C10 counterexample: a MAC string of 17 hexadecimal digits — more
than 16 — still parses and row construction succeeds, because leading
zeros keep the value within `u64`; the claim's "more than 16 hex digits
panics" clause is false on the code. -/
theorem C10_mac_parse_counterexample :
    16 < (stripColons "00000000000000000").length ∧
    (stripColons "00000000000000000").all isHexDigit = true ∧
    (rowNew 0 "00000000000000000" (IpAddr.v4 1) 2 (IpAddr.v4 3) 4 6 10 500 true).isSome
      = true := by
  decide

/-- Claim C10 (amended): row construction's MAC parse succeeds exactly
when the string with `:` removed is, after an optional leading `+`, a
non-empty string of hexadecimal digits whose value is at most `u64::MAX`
— in particular, any number of digits is accepted while the value fits —
and the all-zero sentinel parses to 0. -/
theorem C10_mac_parse_amended :
    (∀ s : String, (macParse s).isSome = validU64Hex (stripColons s)) ∧
    macParse EMPTY_MAC = some 0 :=
  ⟨fun s => fromStrRadix_isSome (stripColons s), by decide⟩
